import Mathlib

/-!
Shallow embedding of the daily-focus-timer repository.

Two source files are modelled:
* the focus timer script (src/unnamed/part_000): countdown state machine,
  daily session counter persisted in local storage;
* the study planner (src/study-planner/script.js): task list with manual
  add, JSON import, completion toggling and statistics.

DOM wiring (element lookups, styling, titles) is elided; the fields of the
state records below correspond to the mutable variables and the rendered
values the scripts maintain.  Ambient wall-clock reads (Date.now and the
calendar-day string) are passed in as explicit parameters, and local
storage is explicit state.
-/

/-! ### JavaScript string primitives used by the scripts -/

/-- Whitespace test covering the ASCII whitespace the scripts can meet;
models the character class used by JS trim and parseInt. -/
def isWS (c : Char) : Bool :=
  c == ' ' || c == '\t' || c == '\n' || c == '\r'

/-- Remove trailing whitespace from a character list. -/
def trimRight : List Char → List Char
  | [] => []
  | c :: cs =>
    match trimRight cs with
    | [] => if isWS c then [] else [c]
    | d :: ds => c :: d :: ds

/-- Model of JS String.prototype.trim: strip leading and trailing whitespace. -/
def trimStr (s : String) : String :=
  String.mk (trimRight (s.data.dropWhile isWS))

/-- Numeric value of a digit run. -/
def digitsVal (l : List Char) : Nat :=
  l.foldl (fun a c => a * 10 + (c.toNat - 48)) 0

/-- The leading digit run of a character list, or none when there is no digit;
the none case models the NaN result of JS parseInt. -/
def digitsPart (l : List Char) : Option Nat :=
  let ds := l.takeWhile Char.isDigit
  if ds = [] then none else some (digitsVal ds)

/-- Model of JS parseInt on a string (base 10): skip leading whitespace,
read an optional sign and the longest digit run; none models NaN. -/
def parseIntStr (s : String) : Option Int :=
  match s.data.dropWhile isWS with
  | '-' :: rest => (digitsPart rest).map (fun n => -(n : Int))
  | '+' :: rest => (digitsPart rest).map (fun n => (n : Int))
  | l => (digitsPart l).map (fun n => (n : Int))

/-- A JSON scalar as the import path meets it: a string or an integer
number.  (The import format declares minutes as a number or a numeric
string; fractional numbers do not occur in the modelled inputs.) -/
inductive JVal
  | jstr (s : String)
  | jnum (n : Int)
  deriving DecidableEq

/-- JS truthiness of a JSON scalar: empty string and zero are falsy. -/
def JVal.truthy : JVal → Bool
  | JVal.jstr s => s != ""
  | JVal.jnum n => n != 0

/-- Model of JS parseInt applied to a JSON scalar: a number passes through
(integers round-trip through their decimal printing), a string is parsed. -/
def parseIntJS : JVal → Option Int
  | JVal.jnum n => some n
  | JVal.jstr s => parseIntStr s

/-! ### Daily focus timer: persisted daily record (localStorage value) -/

/-- The record the timer script stores under its localStorage key:
the destructured { date, count } of loadDailyStats / saveStats. -/
structure DailyRecord where
  date : String
  count : Nat
  deriving DecidableEq

/-- loadDailyStats (timer script, lines 138-156).  Inputs: the current
calendar-day string, the stored record (none when the key is absent) and
the rendered session count at call time (the page loads with 0 rendered;
the HTML file is not part of src).  Output: the rendered count afterwards,
the stored record afterwards, and whether saveStats wrote.  On a same-day
record the stored count is rendered back and nothing is written; on a stale
or absent record the script writes { date := today, count := 0 }. -/
def loadDailyStats (today : String) (stored : Option DailyRecord) (displayed : Nat) :
    Nat × Option DailyRecord × Bool :=
  match stored with
  | some r =>
    if r.date = today then (r.count, some r, false)
    else (displayed, some { date := today, count := 0 }, true)
  | none => (displayed, some { date := today, count := 0 }, true)

/-- incrementDailyCount (timer script, lines 161-168).  Reads the rendered
count, adds 1, renders and persists it under the calendar-day string read
at completion time.  The previously stored record is not read at all (the
parameter is unused, mirroring the source). -/
def incrementDailyCount (today : String) (displayedCount : Nat)
    (_oldStored : Option DailyRecord) : Nat × DailyRecord :=
  (displayedCount + 1, { date := today, count := displayedCount + 1 })

/-! ### Focus timer state machine -/

/-- The phase communicated by the status message: Ready to Focus? (Idle),
Stay Focused... (Running), Session Complete! (Complete). -/
inductive Phase
  | Idle
  | Running
  | Complete
  deriving DecidableEq

/-- Timer script state.  timeLeft is the internal countdown variable;
displaySeconds is the remaining-seconds value last rendered by
updateDisplay (the observable remainingSeconds of the spec);
minutesInputVal is the content of the minutes input box, so the configured
total is minutesInputVal * 60; intervalActive records whether the
setInterval source is registered; sessionCount is the rendered daily
session count and store the persisted DailyRecord. -/
structure TimerSt where
  isRunning : Bool
  intervalActive : Bool
  timeLeft : Int
  displaySeconds : Int
  minutesInputVal : Int
  status : Phase
  sessionCount : Nat
  store : Option DailyRecord
  deriving DecidableEq

/-- startTimer (timer script, lines 54-78): set the running state, the
countdown value, render it, and register the periodic source. -/
def startTimer (durationSeconds : Int) (s : TimerSt) : TimerSt :=
  { s with
    isRunning := true
    timeLeft := durationSeconds
    displaySeconds := durationSeconds
    status := Phase.Running
    intervalActive := true }

/-- The start-button click handler (timer script, lines 31-43).  The
argument is the parseInt result of the minutes input at click time (none
models NaN).  A click while running is ignored; out-of-range minutes are
rejected with an alert and no state change. -/
def startBtnClick (parsedMinutes : Option Int) (s : TimerSt) : TimerSt :=
  if s.isRunning then s
  else
    match parsedMinutes with
    | none => s
    | some m => if m < 1 ∨ m > 180 then s else startTimer (m * 60) s

/-- completeSession (timer script, lines 83-97): stop the interval, leave
the running state, render 00:00, mark the session complete and increment
the daily count. -/
def completeSession (today : String) (s : TimerSt) : TimerSt :=
  let r := incrementDailyCount today s.sessionCount s.store
  { s with
    intervalActive := false
    isRunning := false
    displaySeconds := 0
    status := Phase.Complete
    sessionCount := r.1
    store := some r.2 }

/-- One firing of the setInterval callback (timer script, lines 69-77).
When the source has been cleared no callback fires, which the inactive
branch models as the identity. -/
def tick (today : String) (s : TimerSt) : TimerSt :=
  if s.intervalActive then
    let t := s.timeLeft - 1
    let s2 := { s with timeLeft := t, displaySeconds := t }
    if t ≤ 0 then completeSession today s2 else s2
  else s

/-- resetTimer (timer script, lines 102-117): clear the interval, restore
the 25-minute default in the input box, render 25:00 and return to the
idle status.  The internal timeLeft variable is not touched by the source
(it is dead until the next start overwrites it), and the session counter
and store are untouched. -/
def resetTimer (s : TimerSt) : TimerSt :=
  { s with
    intervalActive := false
    isRunning := false
    minutesInputVal := 25
    displaySeconds := 25 * 60
    status := Phase.Idle }

/-- updateDisplay (timer script, lines 123-130): the rendered string for a
non-negative seconds value, zero-padding each component below 10. -/
def updateDisplayString (seconds : Nat) : String :=
  let m := seconds / 60
  let s := seconds % 60
  (if m < 10 then "0" else "") ++ toString m ++ ":" ++
    (if s < 10 then "0" else "") ++ toString s

/-- Written from the words of the spec (formatting sentence): zero-pad a
component to two digits when below 10. -/
def pad2 (n : Nat) : String :=
  if n < 10 then "0" ++ toString n else toString n

/-- Written from the words of the spec: minutes component is
floor(seconds/60) rendered as-is with no wrap at 60, then a colon, then
the seconds remainder, each component zero-padded below 10. -/
def specMinutesSeconds (seconds : Nat) : String :=
  pad2 (seconds / 60) ++ ":" ++ pad2 (seconds % 60)

/-! ### Study planner: data model and operations -/

namespace Planner

/-- A task as the planner stores it: id is the Date.now millisecond value
used at creation (plus the batch index for imports); minutes is the
parseInt result, with none modelling the NaN a non-numeric import value
would produce; completed is the toggle flag. -/
structure Task where
  id : Nat
  subject : String
  topic : String
  minutes : Option Int
  completed : Bool
  deriving DecidableEq

/-- checkDayReset (planner script, lines 67-77).  Inputs: the current
calendar-day string, the stored last-seen date (none when absent) and the
stored task collection.  Output: the collection afterwards, the stored
date afterwards, and whether local storage was written.  A changed (or
absent) date empties the collection. -/
def checkDayReset (today : String) (lastDate : Option String) (storedTasks : List Task) :
    List Task × String × Bool :=
  if lastDate = some today then (storedTasks, today, false)
  else ([], today, true)

/-- addManualTask (planner script, lines 82-108).  Inputs: the Date.now
value at the click, the three raw input-box strings, and the current
collection.  Invalid input (empty trimmed subject or topic, NaN or
non-positive minutes) alerts and leaves the collection alone; otherwise a
fresh task is appended. -/
def addManualTask (now : Nat) (subjectRaw topicRaw timeRaw : String)
    (tasks : List Task) : List Task :=
  let subject := trimStr subjectRaw
  let topic := trimStr topicRaw
  match parseIntStr timeRaw with
  | none => tasks
  | some minutes =>
    if subject = "" ∨ topic = "" ∨ minutes ≤ 0 then tasks
    else
      tasks ++ [{ id := now, subject := subject, topic := topic,
                  minutes := some minutes, completed := false }]

/-- One element of the parsed import array as the validation loop reads
it: the subject, topic and minutes properties, none when the property is
missing.  Subject and topic are strings per the declared import format;
minutes may be a number or a string. -/
structure RawItem where
  subject : Option String
  topic : Option String
  minutes : Option JVal
  deriving DecidableEq

/-- JS truthiness of an optional string property (missing is falsy). -/
def truthyOptStr : Option String → Bool
  | none => false
  | some s => s != ""

/-- JS truthiness of an optional JSON scalar property (missing is falsy). -/
def truthyOptJV : Option JVal → Bool
  | none => false
  | some v => v.truthy

/-- The per-item validation of the import loop: item.subject, item.topic
and item.minutes must all be truthy. -/
def itemOk (it : RawItem) : Bool :=
  truthyOptStr it.subject && truthyOptStr it.topic && truthyOptJV it.minutes

/-- The forEach loop of importJsonTasks (planner script, lines 130-142):
walk the parsed array with its index, throw on the first invalid item,
otherwise build the new tasks in input order with ids Date.now() + index. -/
def buildTasks (now : Nat) : Nat → List RawItem → Except String (List Task)
  | _, [] => Except.ok []
  | idx, it :: rest =>
    if itemOk it then
      match buildTasks now (idx + 1) rest with
      | Except.error e => Except.error e
      | Except.ok ts =>
        Except.ok ({ id := now + idx,
                     subject := it.subject.getD "",
                     topic := it.topic.getD "",
                     minutes := parseIntJS (it.minutes.getD (JVal.jnum 0)),
                     completed := false } :: ts)
    else Except.error ("Item at index " ++ toString idx ++ " is missing fields.")

/-- The parse result of the import text: JSON.parse succeeded with a
non-array value, or with an array of items. -/
inductive ParsedJson
  | notArray
  | arr (items : List RawItem)
  deriving DecidableEq

/-- The import text as importJsonTasks sees it: empty after trimming,
syntactically invalid JSON (carrying the parser message), or parsed. -/
inductive ImportInput
  | emptyText
  | invalidJson (msg : String)
  | parsed (p : ParsedJson)
  deriving DecidableEq

/-- Observable outcome of importJsonTasks: the error element text, the
count reported by the success alert (none when no alert), and the task
collection afterwards. -/
structure ImportOutcome where
  errorText : String
  importedCount : Option Nat
  tasks : List Task
  deriving DecidableEq

/-- importJsonTasks (planner script, lines 113-155).  Every failure path
(empty text, parse error, non-array, invalid element) sets an error text
and leaves the collection exactly as it was; on success the whole batch is
appended in input order. -/
def importJsonTasks (now : Nat) (input : ImportInput) (tasks : List Task) : ImportOutcome :=
  match input with
  | ImportInput.emptyText =>
    { errorText := "Please paste some JSON first.", importedCount := none, tasks := tasks }
  | ImportInput.invalidJson msg =>
    { errorText := "Invalid JSON: " ++ msg, importedCount := none, tasks := tasks }
  | ImportInput.parsed ParsedJson.notArray =>
    { errorText := "Invalid JSON: " ++ "JSON must be an array of objects.",
      importedCount := none, tasks := tasks }
  | ImportInput.parsed (ParsedJson.arr items) =>
    match buildTasks now 0 items with
    | Except.error e =>
      { errorText := "Invalid JSON: " ++ e, importedCount := none, tasks := tasks }
    | Except.ok newTasks =>
      { errorText := "", importedCount := some newTasks.length, tasks := tasks ++ newTasks }

/-- toggleTask (planner script, lines 197-215): set the completed flag of
the task with the given id to the checkbox state; no task changes when the
id is absent. -/
def toggleTask (id : Nat) (checked : Bool) (tasks : List Task) : List Task :=
  tasks.map (fun t => if t.id = id then { t with completed := checked } else t)

/-- JS addition where none models NaN: NaN propagates through a sum. -/
def jsAdd : Option Int → Option Int → Option Int
  | some a, some b => some (a + b)
  | _, _ => none

/-- The total of updateStats (planner script, lines 231-243):
tasks.reduce((sum, t) => sum + t.minutes, 0). -/
def totalMinutesJS (ts : List Task) : Option Int :=
  ts.foldl (fun acc t => jsAdd acc t.minutes) (some 0)

/-- The completed total of updateStats: filter on the completed flag, then
the same reduce. -/
def completedMinutesJS (ts : List Task) : Option Int :=
  (ts.filter (fun t => t.completed)).foldl (fun acc t => jsAdd acc t.minutes) (some 0)

/-- The progress percentage of updateStats:
total === 0 ? 0 : (completed / total) * 100, with exact rational division
standing for the JS number division and none standing for NaN. -/
def percentJS (ts : List Task) : Option ℚ :=
  if totalMinutesJS ts = some 0 then some 0
  else
    match completedMinutesJS ts, totalMinutesJS ts with
    | some c, some t => some (((c : ℚ) / (t : ℚ)) * 100)
    | _, _ => none

/-- The minutes number of a task, defaulting the NaN case; used to state
sums over collections whose minutes are all numeric. -/
def minutesD (t : Task) : Int := t.minutes.getD 0

/-- The Task data-model invariant as the spec states it: subject and topic
non-empty after trimming, minutes a present integer strictly above 0. -/
def TaskInv (t : Task) : Prop :=
  trimStr t.subject ≠ "" ∧ trimStr t.topic ≠ "" ∧
    t.minutes.isSome = true ∧ 0 < minutesD t

instance (t : Task) : Decidable (TaskInv t) := by
  unfold TaskInv; infer_instance

end Planner

theorem str_empty_append (s : String) : "" ++ s = s := by
  cases s
  rfl

theorem str_append_assoc (a b c : String) : a ++ b ++ c = a ++ (b ++ c) := by
  cases a; cases b; cases c
  exact congrArg String.mk (List.append_assoc _ _ _)

theorem str_colon_zero (x : String) : ":" ++ ("0" ++ x) = ":0" ++ x := by
  rw [← str_append_assoc]
  cases x
  rfl

/-- Claim C1: resetTimer from any phase returns the timer to Idle with the
rendered remaining seconds and the configured total both 1500 seconds (the
25-minute default), stops the periodic source so no tick fires afterwards,
and leaves the session counter and its persisted record unchanged. -/
theorem c1_resetTimer_idle (s : TimerSt) :
    (resetTimer s).status = Phase.Idle ∧
    (resetTimer s).displaySeconds = 1500 ∧
    (resetTimer s).minutesInputVal * 60 = 1500 ∧
    (resetTimer s).isRunning = false ∧
    (resetTimer s).intervalActive = false ∧
    (resetTimer s).sessionCount = s.sessionCount ∧
    (resetTimer s).store = s.store ∧
    ∀ today, tick today (resetTimer s) = resetTimer s := by
  refine ⟨rfl, by norm_num [resetTimer], by norm_num [resetTimer], rfl, rfl, rfl, rfl, ?_⟩
  intro today
  simp [tick, resetTimer]

/-- Claim C9: the rendered countdown string zero-pads minutes and seconds
below 10, separates them with a colon, and the minutes component is
floor(seconds/60) rendered as-is with no wrap at 60: 180 minutes renders
as 180:00. -/
theorem c9_format_minutes_seconds :
    (∀ n : Nat, updateDisplayString n = specMinutesSeconds n) ∧
    updateDisplayString 10800 = "180:00" := by
  constructor
  · intro n
    unfold updateDisplayString specMinutesSeconds pad2
    by_cases h1 : n / 60 < 10 <;> by_cases h2 : n % 60 < 10 <;>
      simp [h1, h2, str_empty_append, str_append_assoc, str_colon_zero]
  · decide

/-- Claim C7: the daily-scoped load paths.  loadDailyStats with a stale or
absent record overwrites the store with the fresh default record for the
current day and leaves 0 rendered; with a same-day record it renders the
stored count back and writes nothing, so a second call in the same day
returns the same value with no further write.  checkDayReset behaves the
same way for the planner with the empty collection as default. -/
theorem c7_ensure_current (today y : String) (v disp : Nat)
    (tasks : List Planner.Task) (lastDate : Option String) :
    (y ≠ today → loadDailyStats today (some ⟨y, v⟩) 0 = (0, some ⟨today, 0⟩, true)) ∧
    loadDailyStats today none 0 = (0, some ⟨today, 0⟩, true) ∧
    loadDailyStats today (some ⟨today, v⟩) disp = (v, some ⟨today, v⟩, false) ∧
    (lastDate ≠ some today → Planner.checkDayReset today lastDate tasks = ([], today, true)) ∧
    Planner.checkDayReset today (some today) tasks = (tasks, today, false) := by
  refine ⟨?_, rfl, ?_, ?_, ?_⟩
  · intro h
    simp [loadDailyStats, h]
  · simp [loadDailyStats]
  · intro h
    simp [Planner.checkDayReset, h]
  · simp [Planner.checkDayReset]

theorem c7_witness :
    loadDailyStats "Tue" (some ⟨"Mon", 5⟩) 0 = (0, some ⟨"Tue", 0⟩, true) ∧
    Planner.checkDayReset "Tue" (some "Mon") [] = ([], "Tue", true) :=
  ⟨(c7_ensure_current "Tue" "Mon" 5 0 [] (some "Mon")).1 (by decide),
   (c7_ensure_current "Tue" "Mon" 5 0 [] (some "Mon")).2.2.2.1 (by decide)⟩

/-- Claim C10: incrementDailyCount ignores the stored record entirely: it
takes the rendered count (the previous day's count when the day rolled
over mid-session), adds 1, and persists that count under the calendar-day
string read at completion time; it never writes 0, while the load path is
the one that writes the fresh-day 0. -/
theorem c10_increment_rollover (today yesterday : String) (c v : Nat)
    (sto : Option DailyRecord) :
    incrementDailyCount today c sto = (c + 1, ⟨today, c + 1⟩) ∧
    c + 1 ≠ 0 ∧
    (yesterday ≠ today →
      loadDailyStats today (some ⟨yesterday, v⟩) 0 = (0, some ⟨today, 0⟩, true)) := by
  refine ⟨rfl, by omega, ?_⟩
  intro h
  simp [loadDailyStats, h]

theorem c10_witness :
    incrementDailyCount "Tue" 4 (some ⟨"Mon", 4⟩) = (5, ⟨"Tue", 5⟩) :=
  (c10_increment_rollover "Tue" "Mon" 4 9 (some ⟨"Mon", 4⟩)).1

/-- Claim C6: the start handler is a no-op while running; with NaN or
out-of-range minutes it leaves the state unchanged; with valid minutes it
sets the countdown and rendered value to minutes*60, enters Running, and
the first tick renders minutes*60 - 1. -/
theorem c6_start_validation (s : TimerSt) (m : Int) (today : String) :
    (s.isRunning = true → ∀ inp, startBtnClick inp s = s) ∧
    (s.isRunning = false → startBtnClick none s = s) ∧
    (s.isRunning = false → m < 1 ∨ m > 180 → startBtnClick (some m) s = s) ∧
    (s.isRunning = false → 1 ≤ m → m ≤ 180 →
      (startBtnClick (some m) s).timeLeft = m * 60 ∧
      (startBtnClick (some m) s).displaySeconds = m * 60 ∧
      (startBtnClick (some m) s).status = Phase.Running ∧
      (tick today (startBtnClick (some m) s)).displaySeconds = m * 60 - 1) := by
  refine ⟨?_, ?_, ?_, ?_⟩
  · intro h inp
    simp [startBtnClick, h]
  · intro h
    simp [startBtnClick, h]
  · intro h hm
    simp [startBtnClick, h, hm]
  · intro h h1 h2
    have hno : ¬(m < 1 ∨ m > 180) := by omega
    have hbig : startBtnClick (some m) s = startTimer (m * 60) s := by
      simp [startBtnClick, h, hno]
    rw [hbig]
    refine ⟨rfl, rfl, rfl, ?_⟩
    have hcond : ¬(m * 60 - 1 ≤ 0) := by omega
    simp [tick, startTimer, hcond]

theorem c6_witness :
    startBtnClick (some 181)
      { isRunning := false, intervalActive := false, timeLeft := 0, displaySeconds := 1500,
        minutesInputVal := 25, status := Phase.Idle, sessionCount := 0, store := none } =
      { isRunning := false, intervalActive := false, timeLeft := 0, displaySeconds := 1500,
        minutesInputVal := 25, status := Phase.Idle, sessionCount := 0, store := none } ∧
    (startBtnClick (some 25)
      { isRunning := false, intervalActive := false, timeLeft := 0, displaySeconds := 1500,
        minutesInputVal := 25, status := Phase.Idle, sessionCount := 0, store := none }).timeLeft = 25 * 60 :=
  ⟨(c6_start_validation _ 181 "Tue").2.2.1 rfl (Or.inr (by norm_num)),
   ((c6_start_validation _ 25 "Tue").2.2.2 rfl (by norm_num) (by norm_num)).1⟩

/-- While fewer ticks than the full duration have fired, the timer is mid
countdown: running, interval active, countdown value duration minus the
number of ticks. -/
theorem timer_run_steps (today : String) (m : Nat) (s : TimerSt)
    (h1 : 1 ≤ m) (h2 : m ≤ 180) (hr : s.isRunning = false) :
    ∀ k : Nat, k < m * 60 →
      (tick today)^[k] (startBtnClick (some (m : Int)) s) =
        { s with isRunning := true, intervalActive := true,
                 timeLeft := (m : Int) * 60 - k, displaySeconds := (m : Int) * 60 - k,
                 status := Phase.Running } := by
  have hno : ¬((m : Int) < 1 ∨ (m : Int) > 180) := by omega
  have hs0 : startBtnClick (some (m : Int)) s = startTimer ((m : Int) * 60) s := by
    simp only [startBtnClick, hr, Bool.false_eq_true, if_false]
    rw [if_neg hno]
  intro k
  induction k with
  | zero =>
    intro _
    rw [Function.iterate_zero_apply, hs0]
    simp [startTimer]
  | succ k ih =>
    intro hk
    rw [Function.iterate_succ_apply', ih (by omega)]
    have hcond : ¬((m : Int) * 60 - k - 1 ≤ 0) := by
      omega
    simp [tick, hcond]
    omega

/-- At exactly duration-many ticks the session completes: interval
cleared, Complete status, counter incremented and persisted. -/
theorem timer_run_final (today : String) (m : Nat) (s : TimerSt)
    (h1 : 1 ≤ m) (h2 : m ≤ 180) (hr : s.isRunning = false) :
    (tick today)^[m * 60] (startBtnClick (some (m : Int)) s) =
      { s with isRunning := false, intervalActive := false,
               timeLeft := 0, displaySeconds := 0, status := Phase.Complete,
               sessionCount := s.sessionCount + 1,
               store := some ⟨today, s.sessionCount + 1⟩ } := by
  have hT : m * 60 = (m * 60 - 1) + 1 := by omega
  rw [hT, Function.iterate_succ_apply',
    timer_run_steps today m s h1 h2 hr (m * 60 - 1) (by omega)]
  have hval : (m : Int) * 60 - ((m * 60 - 1 : Nat) : Int) = 1 := by
    omega
  rw [tick]
  rw [if_pos rfl]
  simp only [hval]
  rw [if_pos (by omega : (1 : Int) - 1 ≤ 0)]
  simp [completeSession, incrementDailyCount]

/-- A completed-state tick is the identity: the interval was cleared. -/
theorem tick_fixed_of_inactive (today : String) (s : TimerSt)
    (h : s.intervalActive = false) : tick today s = s := by
  simp [tick, h]

/-- Claim C5: starting with any duration in [1,180] and letting the
periodic source fire, every count of ticks below duration*60 leaves the
timer Running with the counter untouched, and every count of ticks at or
above duration*60 yields the same completed state: phase Complete, the
session counter incremented by exactly 1 (rendered and persisted), and the
periodic source stopped so that no further tick changes anything. -/
theorem c5_complete_once (today : String) (m : Nat) (s : TimerSt)
    (h1 : 1 ≤ m) (h2 : m ≤ 180) (hr : s.isRunning = false) :
    (∀ k : Nat, k < m * 60 →
      ((tick today)^[k] (startBtnClick (some (m : Int)) s)).status = Phase.Running ∧
      ((tick today)^[k] (startBtnClick (some (m : Int)) s)).sessionCount = s.sessionCount) ∧
    (∀ n : Nat, m * 60 ≤ n →
      ((tick today)^[n] (startBtnClick (some (m : Int)) s)).status = Phase.Complete ∧
      ((tick today)^[n] (startBtnClick (some (m : Int)) s)).sessionCount = s.sessionCount + 1 ∧
      ((tick today)^[n] (startBtnClick (some (m : Int)) s)).intervalActive = false ∧
      ((tick today)^[n] (startBtnClick (some (m : Int)) s)).store =
        some ⟨today, s.sessionCount + 1⟩) := by
  constructor
  · intro k hk
    rw [timer_run_steps today m s h1 h2 hr k hk]
    exact ⟨rfl, rfl⟩
  · intro n hn
    have hsplit : n = (n - m * 60) + m * 60 := by omega
    rw [hsplit, Function.iterate_add_apply,
      timer_run_final today m s h1 h2 hr,
      Function.iterate_fixed (tick_fixed_of_inactive today _ rfl) (n - m * 60)]
    exact ⟨rfl, rfl, rfl, rfl⟩

theorem c5_witness :
    ((tick "Tue")^[60] (startBtnClick (some ((1 : Nat) : Int))
      { isRunning := false, intervalActive := false, timeLeft := 0, displaySeconds := 1500,
        minutesInputVal := 25, status := Phase.Idle, sessionCount := 2,
        store := none })).status = Phase.Complete ∧
    ((tick "Tue")^[60] (startBtnClick (some ((1 : Nat) : Int))
      { isRunning := false, intervalActive := false, timeLeft := 0, displaySeconds := 1500,
        minutesInputVal := 25, status := Phase.Idle, sessionCount := 2,
        store := none })).sessionCount = 3 :=
  ⟨((c5_complete_once "Tue" 1 _ (by norm_num) (by norm_num) rfl).2 60 (by norm_num)).1,
   ((c5_complete_once "Tue" 1 _ (by norm_num) (by norm_num) rfl).2 60 (by norm_num)).2.1⟩

/-! ### Lemmas about trimming and the import loop -/

theorem dropWhile_self (p : Char → Bool) (l : List Char) :
    (l.dropWhile p).dropWhile p = l.dropWhile p := by
  induction l with
  | nil => rfl
  | cons c cs ih =>
    by_cases h : p c
    · simp [List.dropWhile_cons, h, ih]
    · simp [List.dropWhile_cons, h]

theorem dropWhile_head_not (p : Char → Bool) :
    ∀ (l : List Char) (c : Char) (cs : List Char),
      l.dropWhile p = c :: cs → p c = false := by
  intro l
  induction l with
  | nil => intro c cs h; simp at h
  | cons a as ih =>
    intro c cs h
    by_cases ha : p a
    · rw [List.dropWhile_cons, if_pos ha] at h
      exact ih c cs h
    · rw [List.dropWhile_cons, if_neg ha] at h
      cases h
      simpa using ha

theorem trimRight_cons (c : Char) (cs : List Char) :
    trimRight (c :: cs) =
      match trimRight cs with
      | [] => if isWS c then [] else [c]
      | d :: ds => c :: d :: ds := rfl

theorem trimRight_singleton (c : Char) : trimRight [c] = if isWS c then [] else [c] := rfl

theorem trimRight_idem (l : List Char) : trimRight (trimRight l) = trimRight l := by
  induction l with
  | nil => rfl
  | cons c cs ih =>
    cases h : trimRight cs with
    | nil =>
      have hstep : trimRight (c :: cs) = if isWS c then [] else [c] := by
        rw [trimRight_cons, h]
      rw [hstep]
      by_cases hc : isWS c
      · rw [if_pos hc]; rfl
      · rw [if_neg hc, trimRight_singleton, if_neg hc]
    | cons d ds =>
      have h2 : trimRight (d :: ds) = d :: ds := by
        rw [← h, ih]
      have hstep : trimRight (c :: cs) = c :: d :: ds := by
        rw [trimRight_cons, h]
      rw [hstep, trimRight_cons, h2]

theorem trimRight_head (c : Char) (cs : List Char) :
    trimRight (c :: cs) = [] ∨ ∃ ds, trimRight (c :: cs) = c :: ds := by
  rw [trimRight_cons]
  cases h : trimRight cs with
  | nil =>
    by_cases hc : isWS c
    · left; rw [if_pos hc]
    · right; exact ⟨[], by rw [if_neg hc]⟩
  | cons d ds => right; exact ⟨d :: ds, rfl⟩

theorem dropWhile_trimRight_eq (l : List Char) :
    (trimRight (l.dropWhile isWS)).dropWhile isWS = trimRight (l.dropWhile isWS) := by
  cases h : l.dropWhile isWS with
  | nil => simp [trimRight]
  | cons c cs =>
    have hc : isWS c = false := dropWhile_head_not isWS l c cs h
    rcases trimRight_head c cs with h2 | ⟨ds, h2⟩
    · simp [h2]
    · rw [h2, List.dropWhile_cons, if_neg (by simp [hc])]

theorem trimStr_idem (s : String) : trimStr (trimStr s) = trimStr s := by
  unfold trimStr
  have hd : (String.mk (trimRight (s.data.dropWhile isWS))).data
      = trimRight (s.data.dropWhile isWS) := rfl
  rw [hd, dropWhile_trimRight_eq, trimRight_idem]

namespace Planner

/-- When some element of the batch is invalid, the loop throws the message
naming the first invalid index and produces no tasks. -/
theorem buildTasks_error_eq (now : Nat) :
    ∀ (items : List RawItem) (idx : Nat),
      items.any (fun it => !itemOk it) = true →
      buildTasks now idx items =
        Except.error ("Item at index " ++
          toString (idx + items.findIdx (fun it => !itemOk it)) ++ " is missing fields.") := by
  intro items
  induction items with
  | nil => intro idx h; simp at h
  | cons it rest ih =>
    intro idx h
    by_cases hok : itemOk it
    · have hrest : rest.any (fun x => !itemOk x) = true := by
        simpa [hok] using h
      unfold buildTasks
      rw [if_pos hok, ih (idx + 1) hrest]
      have harg : idx + 1 + rest.findIdx (fun x => !itemOk x) =
          idx + (it :: rest).findIdx (fun x => !itemOk x) := by
        rw [List.findIdx_cons]
        simp [hok]
        omega
      rw [harg]
    · unfold buildTasks
      rw [if_neg hok, List.findIdx_cons]
      have hneg : (!itemOk it) = true := by simp [hok]
      rw [hneg]
      simp

/-- Claim C4: importJsonTasks is atomic.  Every failure path — empty
input, a JSON parse error, a non-array value, or any invalid element of
the array — sets an error text (for an invalid element, the text names
the first offending index) and returns the task collection exactly as it
was: no element of the batch is inserted. -/
theorem c4_import_atomic (now : Nat) (tasks : List Task) :
    importJsonTasks now ImportInput.emptyText tasks =
      { errorText := "Please paste some JSON first.", importedCount := none, tasks := tasks } ∧
    (∀ msg, importJsonTasks now (ImportInput.invalidJson msg) tasks =
      { errorText := "Invalid JSON: " ++ msg, importedCount := none, tasks := tasks }) ∧
    importJsonTasks now (ImportInput.parsed ParsedJson.notArray) tasks =
      { errorText := "Invalid JSON: " ++ "JSON must be an array of objects.",
        importedCount := none, tasks := tasks } ∧
    (∀ items : List RawItem, items.any (fun it => !itemOk it) = true →
      importJsonTasks now (ImportInput.parsed (ParsedJson.arr items)) tasks =
        { errorText := "Invalid JSON: " ++ ("Item at index " ++
            toString (items.findIdx (fun it => !itemOk it)) ++ " is missing fields."),
          importedCount := none, tasks := tasks }) := by
  refine ⟨rfl, fun msg => rfl, rfl, ?_⟩
  intro items h
  have hred : importJsonTasks now (ImportInput.parsed (ParsedJson.arr items)) tasks =
      match buildTasks now 0 items with
      | Except.error e =>
        { errorText := "Invalid JSON: " ++ e, importedCount := none, tasks := tasks }
      | Except.ok newTasks =>
        { errorText := "", importedCount := some newTasks.length,
          tasks := tasks ++ newTasks } := rfl
  rw [hred, buildTasks_error_eq now items 0 h, Nat.zero_add]

theorem c4_witness :
    (importJsonTasks 100 (ImportInput.parsed (ParsedJson.arr
      [⟨some "A", some "B", some (JVal.jnum 10)⟩, ⟨some "C", none, none⟩]))
      [⟨7, "x", "y", some 3, true⟩]).tasks = [⟨7, "x", "y", some 3, true⟩] :=
  congrArg ImportOutcome.tasks
    ((c4_import_atomic 100 [⟨7, "x", "y", some 3, true⟩]).2.2.2
      [⟨some "A", some "B", some (JVal.jnum 10)⟩, ⟨some "C", none, none⟩] (by decide))

/-- On a successful batch the generated ids are exactly
now + idx, now + idx + 1, ... in input order. -/
theorem buildTasks_ids (now : Nat) :
    ∀ (items : List RawItem) (idx : Nat) (ts : List Task),
      buildTasks now idx items = Except.ok ts →
      ts.map Task.id = (List.range items.length).map (fun j => now + idx + j) := by
  intro items
  induction items with
  | nil =>
    intro idx ts h
    unfold buildTasks at h
    cases h
    rfl
  | cons it rest ih =>
    intro idx ts h
    unfold buildTasks at h
    by_cases hok : itemOk it
    · rw [if_pos hok] at h
      cases hrec : buildTasks now (idx + 1) rest with
      | error e => rw [hrec] at h; cases h
      | ok ts2 =>
        rw [hrec] at h
        cases h
        have hih := ih (idx + 1) ts2 hrec
        rw [List.map_cons, hih, List.length_cons, List.range_succ_eq_map,
          List.map_cons, List.map_map]
        refine congrArg₂ List.cons (by simp) ?_
        refine List.map_congr_left ?_
        intro j _
        simp [Function.comp]
        omega
    · rw [if_neg hok] at h
      cases h

/-- The original claim C2 is false at a concrete input: an import of two
items at millisecond 100 creates ids 100 and 101, and a second import one
millisecond later creates id 101 again, so a generated id collides with
the id of a task already in the collection. -/
theorem c2_counterexample :
    (importJsonTasks 100 (ImportInput.parsed (ParsedJson.arr
      [⟨some "A", some "B", some (JVal.jnum 10)⟩,
       ⟨some "C", some "D", some (JVal.jnum 5)⟩])) []).tasks.map Task.id = [100, 101] ∧
    (importJsonTasks 101 (ImportInput.parsed (ParsedJson.arr
      [⟨some "E", some "F", some (JVal.jnum 7)⟩]))
      (importJsonTasks 100 (ImportInput.parsed (ParsedJson.arr
        [⟨some "A", some "B", some (JVal.jnum 10)⟩,
         ⟨some "C", some "D", some (JVal.jnum 5)⟩])) []).tasks).tasks.map Task.id =
      [100, 101, 101] ∧
    ¬ ((importJsonTasks 101 (ImportInput.parsed (ParsedJson.arr
      [⟨some "E", some "F", some (JVal.jnum 7)⟩]))
      (importJsonTasks 100 (ImportInput.parsed (ParsedJson.arr
        [⟨some "A", some "B", some (JVal.jnum 10)⟩,
         ⟨some "C", some "D", some (JVal.jnum 5)⟩])) []).tasks).tasks.map Task.id).Nodup := by
  decide

/-- Claim C2 amended: within one import batch the generated ids are
pairwise distinct, and a successful batch is appended whole; ids are also
distinct from every pre-existing id provided the Date.now value of the
call exceeds every id already in the collection — which can fail when two
creations happen in overlapping millisecond windows, as the counterexample
shows. -/
theorem c2_import_id_uniqueness_amended (now : Nat) (tasks : List Task)
    (items : List RawItem) (newTasks : List Task)
    (h : buildTasks now 0 items = Except.ok newTasks) :
    (importJsonTasks now (ImportInput.parsed (ParsedJson.arr items)) tasks).tasks =
      tasks ++ newTasks ∧
    (newTasks.map Task.id).Nodup ∧
    ((∀ t ∈ tasks, t.id < now) → ∀ a ∈ newTasks, ∀ b ∈ tasks, a.id ≠ b.id) := by
  have hids := buildTasks_ids now items 0 newTasks h
  refine ⟨?_, ?_, ?_⟩
  · have hred : importJsonTasks now (ImportInput.parsed (ParsedJson.arr items)) tasks =
        match buildTasks now 0 items with
        | Except.error e =>
          { errorText := "Invalid JSON: " ++ e, importedCount := none, tasks := tasks }
        | Except.ok newTasks =>
          { errorText := "", importedCount := some newTasks.length,
            tasks := tasks ++ newTasks } := rfl
    rw [hred, h]
  · rw [hids]
    exact List.Nodup.map (fun a b hab => by omega) (List.nodup_range _)
  · intro hlt a ha b hb
    have hmem : a.id ∈ newTasks.map Task.id := List.mem_map_of_mem Task.id ha
    rw [hids] at hmem
    rcases List.mem_map.mp hmem with ⟨j, _, hj⟩
    have := hlt b hb
    omega

theorem c2_amended_witness :
    (([⟨100, "A", "B", some 10, false⟩] : List Task).map Task.id).Nodup :=
  (c2_import_id_uniqueness_amended 100 [] [⟨some "A", some "B", some (JVal.jnum 10)⟩]
    [⟨100, "A", "B", some 10, false⟩] rfl).2.1

/-- Tasks built by a successful import batch always carry completed =
false and the subject and topic values the validation let through, which
are non-empty as raw strings. -/
theorem buildTasks_fields (now : Nat) :
    ∀ (items : List RawItem) (idx : Nat) (ts : List Task),
      buildTasks now idx items = Except.ok ts →
      ∀ t ∈ ts, t.completed = false ∧ t.subject ≠ "" ∧ t.topic ≠ "" := by
  intro items
  induction items with
  | nil =>
    intro idx ts h
    unfold buildTasks at h
    cases h
    intro t ht
    simp at ht
  | cons it rest ih =>
    intro idx ts h
    unfold buildTasks at h
    by_cases hok : itemOk it
    · rw [if_pos hok] at h
      cases hrec : buildTasks now (idx + 1) rest with
      | error e => rw [hrec] at h; cases h
      | ok ts2 =>
        rw [hrec] at h
        cases h
        intro t ht
        rcases List.mem_cons.mp ht with hhead | htail
        · subst hhead
          have hsub : truthyOptStr it.subject = true := by
            have := hok
            unfold itemOk at this
            exact (Bool.and_eq_true _ _).mp ((Bool.and_eq_true _ _).mp this).1 |>.1
          have htop : truthyOptStr it.topic = true := by
            have := hok
            unfold itemOk at this
            exact (Bool.and_eq_true _ _).mp ((Bool.and_eq_true _ _).mp this).1 |>.2
          refine ⟨rfl, ?_, ?_⟩
          · cases hs : it.subject with
            | none => rw [hs] at hsub; simp [truthyOptStr] at hsub
            | some s =>
              rw [hs] at hsub
              simp only [truthyOptStr, bne_iff_ne, ne_eq] at hsub
              simpa [hs] using hsub
          · cases hs : it.topic with
            | none => rw [hs] at htop; simp [truthyOptStr] at htop
            | some s =>
              rw [hs] at htop
              simp only [truthyOptStr, bne_iff_ne, ne_eq] at htop
              simpa [hs] using htop
        · exact ih (idx + 1) ts2 hrec t htail
    · rw [if_neg hok] at h
      cases h

/-- The original claim C3 is false at a concrete input: importing an item
whose subject is the one-space string succeeds (a whitespace-only string
is truthy, and the import path never trims), inserting a task whose
subject is empty after trimming. -/
theorem c3_counterexample :
    (importJsonTasks 50 (ImportInput.parsed (ParsedJson.arr
      [⟨some " ", some "B", some (JVal.jnum 10)⟩])) []).tasks =
      [{ id := 50, subject := " ", topic := "B", minutes := some 10, completed := false }] ∧
    ¬ TaskInv { id := 50, subject := " ", topic := "B", minutes := some 10,
                completed := false } := by
  constructor
  · rfl
  · decide

/-- Claim C3 amended: every task appended by addManualTask satisfies the
full Task invariant (trimmed-non-empty subject and topic, integer minutes
strictly above 0, completed = false).  A task appended by importJsonTasks
is only guaranteed completed = false with raw-non-empty subject and topic:
the import path does not trim, so whitespace-only strings get through, and
its minutes (the parseInt coercion of the raw value) may be non-positive
or missing. -/
theorem c3_task_invariant_amended (now : Nat) (sRaw tRaw mRaw : String)
    (input : ImportInput) (tasks : List Task) :
    (∀ t ∈ addManualTask now sRaw tRaw mRaw tasks, t ∈ tasks ∨ TaskInv t) ∧
    (∀ t ∈ (importJsonTasks now input tasks).tasks,
      t ∈ tasks ∨ (t.completed = false ∧ t.subject ≠ "" ∧ t.topic ≠ "")) := by
  constructor
  · intro t ht
    simp only [addManualTask] at ht
    cases hp : parseIntStr mRaw with
    | none => rw [hp] at ht; exact Or.inl ht
    | some m =>
      rw [hp] at ht
      replace ht : t ∈ (if trimStr sRaw = "" ∨ trimStr tRaw = "" ∨ m ≤ 0 then tasks
          else tasks ++ [{ id := now, subject := trimStr sRaw, topic := trimStr tRaw,
                           minutes := some m, completed := false }]) := ht
      by_cases hg : trimStr sRaw = "" ∨ trimStr tRaw = "" ∨ m ≤ 0
      · rw [if_pos hg] at ht
        exact Or.inl ht
      · rw [if_neg hg] at ht
        push_neg at hg
        rcases List.mem_append.mp ht with hin | hnew
        · exact Or.inl hin
        · right
          rcases List.mem_singleton.mp hnew with rfl
          exact ⟨by simpa [trimStr_idem] using hg.1,
                 by simpa [trimStr_idem] using hg.2.1,
                 rfl, by simpa [minutesD] using hg.2.2⟩
  · intro t ht
    cases input with
    | emptyText => exact Or.inl ht
    | invalidJson msg => exact Or.inl ht
    | parsed p =>
      cases p with
      | notArray => exact Or.inl ht
      | arr items =>
        have hred : (importJsonTasks now (ImportInput.parsed (ParsedJson.arr items))
            tasks).tasks =
            match buildTasks now 0 items with
            | Except.error _ => tasks
            | Except.ok newTasks => tasks ++ newTasks := by
          cases hb : buildTasks now 0 items <;>
            simp [importJsonTasks, hb]
        rw [hred] at ht
        cases hb : buildTasks now 0 items with
        | error e => rw [hb] at ht; exact Or.inl ht
        | ok newTasks =>
          rw [hb] at ht
          rcases List.mem_append.mp ht with hin | hnew
          · exact Or.inl hin
          · exact Or.inr (buildTasks_fields now items 0 newTasks hb t hnew)

theorem c3_amended_witness :
    (⟨7, "Math", "Algebra", some 30, false⟩ : Task) ∈ ([] : List Task) ∨
      TaskInv ⟨7, "Math", "Algebra", some 30, false⟩ :=
  (c3_task_invariant_amended 7 "Math" "Algebra" "30" ImportInput.emptyText []).1
    ⟨7, "Math", "Algebra", some 30, false⟩ (by decide)

/-- Folding the JS sum over tasks whose minutes are all present yields
the mathematical sum. -/
theorem foldl_jsAdd (l : List Task) :
    ∀ a : Int, (∀ t ∈ l, t.minutes.isSome = true) →
      l.foldl (fun acc t => jsAdd acc t.minutes) (some a) =
        some (a + (l.map minutesD).sum) := by
  induction l with
  | nil => intro a _; simp
  | cons t ts ih =>
    intro a h
    have ht : t.minutes = some (minutesD t) := by
      have hs := h t (by simp)
      cases hm : t.minutes with
      | none => rw [hm] at hs; simp at hs
      | some n => simp [minutesD, hm]
    rw [List.foldl_cons,
      show jsAdd (some a) t.minutes = some (a + minutesD t) by rw [ht]; rfl,
      ih (a + minutesD t) (fun x hx => h x (by simp [hx]))]
    simp [add_assoc]

/-- With non-negative minutes the completed sum is between 0 and the total
sum. -/
theorem completed_sum_bounds (l : List Task) :
    (∀ t ∈ l, 0 ≤ minutesD t) →
      0 ≤ ((l.filter (fun t => t.completed)).map minutesD).sum ∧
      ((l.filter (fun t => t.completed)).map minutesD).sum ≤ (l.map minutesD).sum := by
  induction l with
  | nil => intro _; simp
  | cons t ts ih =>
    intro h
    have h0 : 0 ≤ minutesD t := h t (by simp)
    have hts := ih (fun x hx => h x (by simp [hx]))
    by_cases hc : t.completed
    · rw [List.filter_cons, if_pos (by simpa using hc)]
      simp only [List.map_cons, List.sum_cons]
      constructor <;> omega
    · rw [List.filter_cons, if_neg (by simpa using hc)]
      simp only [List.map_cons, List.sum_cons]
      constructor <;> omega

/-- Claim C8: over any task collection satisfying the data model (minutes
present and strictly positive), updateStats computes the total as the sum
of minutes, the completed total as the sum over completed tasks, and the
percentage as 0 for an empty total and otherwise 100 * completed / total,
always within [0,100]. -/
theorem c8_statistics (ts : List Task)
    (h : ∀ t ∈ ts, t.minutes.isSome = true ∧ 0 < minutesD t) :
    totalMinutesJS ts = some ((ts.map minutesD).sum) ∧
    completedMinutesJS ts =
      some (((ts.filter (fun t => t.completed)).map minutesD).sum) ∧
    ((ts.map minutesD).sum = 0 → percentJS ts = some 0) ∧
    ((ts.map minutesD).sum ≠ 0 → percentJS ts =
      some (100 * ((((ts.filter (fun t => t.completed)).map minutesD).sum : Int) : ℚ) /
        (((ts.map minutesD).sum : Int) : ℚ))) ∧
    (∀ q : ℚ, percentJS ts = some q → 0 ≤ q ∧ q ≤ 100) := by
  have hsome : ∀ t ∈ ts, t.minutes.isSome = true := fun t htm => (h t htm).1
  have hpos : ∀ t ∈ ts, 0 ≤ minutesD t := fun t htm => le_of_lt (h t htm).2
  have htot : totalMinutesJS ts = some ((ts.map minutesD).sum) := by
    unfold totalMinutesJS
    rw [foldl_jsAdd ts 0 hsome, zero_add]
  have hcomp : completedMinutesJS ts =
      some (((ts.filter (fun t => t.completed)).map minutesD).sum) := by
    unfold completedMinutesJS
    rw [foldl_jsAdd (ts.filter (fun t => t.completed)) 0
      (fun x hx => hsome x (List.mem_of_mem_filter hx)), zero_add]
  have hbounds := completed_sum_bounds ts hpos
  refine ⟨htot, hcomp, ?_, ?_, ?_⟩
  · intro h0
    unfold percentJS
    rw [htot, h0]
    simp
  · intro h0
    unfold percentJS
    rw [htot, hcomp]
    rw [if_neg (by simpa using h0)]
    exact congrArg some (by ring)
  · intro q hq
    unfold percentJS at hq
    rw [htot, hcomp] at hq
    by_cases h0 : (ts.map minutesD).sum = 0
    · rw [if_pos (by simpa using h0)] at hq
      cases hq
      norm_num
    · rw [if_neg (by simpa using h0)] at hq
      replace hq : some (((((ts.filter (fun t => t.completed)).map minutesD).sum : Int) : ℚ) /
          (((ts.map minutesD).sum : Int) : ℚ) * 100) = some q := hq
      cases hq
      have hTpos : 0 < (ts.map minutesD).sum := by omega
      have hTq : (0 : ℚ) < (((ts.map minutesD).sum : Int) : ℚ) := by
        exact_mod_cast hTpos
      have hCq : (0 : ℚ) ≤ ((((ts.filter (fun t => t.completed)).map minutesD).sum : Int) : ℚ) := by
        exact_mod_cast hbounds.1
      have hCT : ((((ts.filter (fun t => t.completed)).map minutesD).sum : Int) : ℚ) ≤
          (((ts.map minutesD).sum : Int) : ℚ) := by
        exact_mod_cast hbounds.2
      constructor
      · positivity
      · have hdiv : ((((ts.filter (fun t => t.completed)).map minutesD).sum : Int) : ℚ) /
            (((ts.map minutesD).sum : Int) : ℚ) ≤ 1 :=
          (div_le_one hTq).mpr hCT
        nlinarith

theorem c8_witness :
    totalMinutesJS [⟨1, "Math", "Algebra", some 30, false⟩] = some 30 := by
  have h := c8_statistics [⟨1, "Math", "Algebra", some 30, false⟩] (by decide)
  exact h.1.trans (by decide)

end Planner
